import Mathlib

/-!
Shallow embedding of `src/checker.py` (the sequential post processor) and
verification of the specification's claims about it.

Randomness is embedded by passing the drawn values explicitly (the batch-size
draw, the weight and perturbation draws of the pacer).  HTTP traffic is
embedded as explicit outcome values consumed by the functions that perform the
requests.  Machine reals of the pacer are embedded as rationals.
-/

namespace Checker

/-- `POST_IDS_FILE` constant of the source. -/
def POST_IDS_FILE : String := "postIds.txt"

/-- `PROCESSED_FILE` constant of the source. -/
def PROCESSED_FILE : String := "processed_so_far.txt"

/-- `USER_AGENT` constant of the source: a fixed client identity string,
not read from the environment. -/
def USER_AGENT : String :=
  "Mozilla/5.0 (X11; Linux x86_64) AppleWebKit/537.36 (KHTML, like Gecko) Chrome/137.0.0.0 Safari/537.36"

/-! ### Identifier validator (`is_valid_id`, src/checker.py lines 151-154)

The source matches with Python `re.match` against
`^[0-9a-f]{8}-[0-9a-f]{4}-[0-9a-f]{4}-[0-9a-f]{4}-[0-9a-f]{12}$` with
`re.IGNORECASE`.  `re.match` anchors at the start of the string; the `$`
anchor of Python (without `re.MULTILINE`) matches at the end of the string or
just before a single newline at the end of the string.  The matcher below
implements exactly that pattern: `matchGroups` consumes the hex groups
separated by hyphens and finishes with the supplied end-of-input test;
`pyLineEnd` is Python's `$`, `strictEnd` is the mathematical end anchor. -/

/-- A character accepted by `[0-9a-f]` under `re.IGNORECASE`. -/
def isHexDigit (c : Char) : Bool :=
  (48 ≤ c.toNat && c.toNat ≤ 57) || (97 ≤ c.toNat && c.toNat ≤ 102) ||
    (65 ≤ c.toNat && c.toNat ≤ 70)

/-- Consume exactly `n` hex digits from the front, returning the rest. -/
def consumeHex : Nat → List Char → Option (List Char)
  | 0, cs => some cs
  | _ + 1, [] => none
  | n + 1, c :: cs => if isHexDigit c then consumeHex n cs else none

/-- Python's `$` anchor (no MULTILINE): end of input, or a single final
newline remains. -/
def pyLineEnd (cs : List Char) : Bool := cs == [] || cs == ['\n']

/-- The mathematical end-of-string anchor. -/
def strictEnd (cs : List Char) : Bool := cs == []

/-- Match hyphen-separated hex groups of the given sizes and finish with
`endOk` on the remaining input. -/
def matchGroups (endOk : List Char → Bool) : List Nat → List Char → Bool
  | [], cs => endOk cs
  | g :: gs, cs =>
    match consumeHex g cs with
    | none => false
    | some rest =>
      match gs with
      | [] => endOk rest
      | _ :: _ =>
        match rest with
        | [] => false
        | c :: rest2 => if c = '-' then matchGroups endOk gs rest2 else false

/-- The group sizes of the pattern `8-4-4-4-12`. -/
def uuid_groups : List Nat := [8, 4, 4, 4, 12]

/-- `is_valid_id` of the source: Python `re.match` of the UUID pattern
(with Python's `$` semantics). -/
def is_valid_id (s : String) : Bool := matchGroups pyLineEnd uuid_groups s.data

/-- The canonical identifier pattern as the spec states it: the same regex
read with the standard (strict) end-of-string anchor.  This is the spec-side
definition used to compare against `is_valid_id`. -/
def canonicalPattern (s : String) : Bool := matchGroups strictEnd uuid_groups s.data

/-! ### Loading the stored lists (src/checker.py lines 123-149) -/

/-- Python's `content.split('\n')`: split at every newline, keeping empty
pieces (`"".split('\n')` is `[""]`). -/
def splitNl : List Char → List (List Char)
  | [] => [[]]
  | c :: cs =>
    if c = '\n' then [] :: splitNl cs
    else
      match splitNl cs with
      | l :: ls => (c :: l) :: ls
      | [] => [[c]]

/-- The whitespace characters removed by Python's `str.strip()` (the ASCII
ones; the stored blobs are ASCII text). -/
def isStripSpace (c : Char) : Bool :=
  c = ' ' || c = '\t' || c = '\n' || c = '\r' ||
    c = Char.ofNat 11 || c = Char.ofNat 12

/-- Python's `str.strip()`: drop whitespace from both ends. -/
def stripChars (cs : List Char) : List Char :=
  ((cs.dropWhile isStripSpace).reverse.dropWhile isStripSpace).reverse

/-- Python's `line.strip()` on a string. -/
def stripStr (s : String) : String := String.mk (stripChars s.data)

/-- The filtering comprehension shared by `load_post_ids` and
`load_processed_ids`: keep the stripped, non-empty, valid lines of the
stored content (`content.split('\n')`, stripped, validated). -/
def parseValidLines (content : String) : List String :=
  ((splitNl content.data).map (fun l => String.mk (stripChars l))).filter
    (fun l => !(l == "") && is_valid_id l)

/-! ### Work queue and batch selection (`get_unprocessed_batch`,
src/checker.py lines 156-178) -/

/-- The filtering loop of `get_unprocessed_batch`: the identifiers of the
master list that are not in the processed set, in master order. -/
def unprocessedOf (allIds processed : List String) : List String :=
  allIds.filter (fun pid => !(processed.contains pid))

/-- `get_unprocessed_batch` of the source, with the `random.randint(5, 8)`
draw passed in as `k`: take the `min k |unprocessed|`-prefix of the
unprocessed sequence (empty when nothing is unprocessed). -/
def get_unprocessed_batch (allIds processed : List String) (k : Nat) : List String :=
  let unprocessed := unprocessedOf allIds processed
  if unprocessed.isEmpty then []
  else unprocessed.take (min k unprocessed.length)

/-! ### Pacer (`generate_random_delays`, src/checker.py lines 252-278)

The draws `random.uniform(0.5, 2.0)` (weights) and `random.uniform(0.8, 1.2)`
(perturbations) are passed in as functions from the draw index to the drawn
rational. -/

/-- `generate_random_delays` of the source: for more than one request,
draw `n - 1` weights, normalise them against their sum scaled to
`total_time`, perturb each, and clamp each into `[5, 30]` via
`max(5, min(30, d))`. -/
def generate_random_delays (num_requests : Nat) (total_time : ℚ)
    (wdraw pdraw : Nat → ℚ) : List ℚ :=
  if num_requests ≤ 1 then []
  else
    let num_delays := num_requests - 1
    let weights := (List.range num_delays).map wdraw
    let weight_sum := weights.sum
    let delays := weights.map (fun w => w / weight_sum * total_time)
    List.zipWith (fun d p => max 5 (min 30 (d * p))) delays
      ((List.range num_delays).map pdraw)

/-! ## Claims about the pacer and the queue -/

/-- Every element produced by the clamping `zipWith` of the pacer lies in
`[5, 30]`. -/
lemma mem_clampZip {l1 l2 : List ℚ} {x : ℚ}
    (hx : x ∈ List.zipWith (fun d p => max 5 (min 30 (d * p))) l1 l2) :
    5 ≤ x ∧ x ≤ 30 := by
  induction l1 generalizing l2 with
  | nil => simp at hx
  | cons a t ih =>
    cases l2 with
    | nil => simp at hx
    | cons b t2 =>
      simp only [List.zipWith_cons_cons, List.mem_cons] at hx
      rcases hx with h | h
      · exact h ▸ ⟨le_max_left _ _, max_le (by norm_num) (min_le_left _ _)⟩
      · exact ih h

/-- **C5.** `generate_random_delays(n, 120)` returns exactly `n - 1`
(truncated subtraction, i.e. `max (n-1) 0`) delays, each within `[5, 30]`,
whatever the random draws; in particular it is empty for `n ≤ 1`. -/
theorem C5_delays_shape (n : ℕ) (wdraw pdraw : Nat → ℚ) :
    (generate_random_delays n 120 wdraw pdraw).length = n - 1 ∧
    (∀ d ∈ generate_random_delays n 120 wdraw pdraw, 5 ≤ d ∧ d ≤ 30) ∧
    (n ≤ 1 → generate_random_delays n 120 wdraw pdraw = []) := by
  refine ⟨?_, ?_, ?_⟩
  · unfold generate_random_delays
    by_cases h : n ≤ 1
    · rw [if_pos h, List.length_nil]; omega
    · rw [if_neg h]; simp
  · intro d hd
    unfold generate_random_delays at hd
    by_cases h : n ≤ 1
    · rw [if_pos h] at hd; simp at hd
    · rw [if_neg h] at hd
      exact mem_clampZip hd
  · intro h1
    unfold generate_random_delays
    rw [if_pos h1]

/-- Witness for C5 at `n = 3` with constant draws. -/
theorem C5_delays_shape_witness :
    (generate_random_delays 3 120 (fun _ => 1) (fun _ => 1)).length = 2 ∧
    (5 ≤ (30 : ℚ) ∧ (30 : ℚ) ≤ 30) := by
  refine ⟨(C5_delays_shape 3 (fun _ => 1) (fun _ => 1)).1, ?_⟩
  refine (C5_delays_shape 3 (fun _ => 1) (fun _ => 1)).2.1 30 ?_
  show (30 : ℚ) ∈ generate_random_delays 3 120 (fun _ => 1) (fun _ => 1)
  norm_num [generate_random_delays, List.range_succ]

/-- **C6.** For a batch-size draw `k ∈ [5, 8]`, the selected batch is a
prefix of the unprocessed sequence and its length is
`min k |unprocessed|`; in particular it never has more elements than the
input, and given the draw the selection is deterministic. -/
theorem C6_batch_prefix (allIds processed : List String) (k : Nat)
    (h5 : 5 ≤ k) (h8 : k ≤ 8) :
    (∃ t, get_unprocessed_batch allIds processed k ++ t = unprocessedOf allIds processed) ∧
    (get_unprocessed_batch allIds processed k).length
      = min k (unprocessedOf allIds processed).length ∧
    (get_unprocessed_batch allIds processed k).length
      ≤ (unprocessedOf allIds processed).length := by
  unfold get_unprocessed_batch
  set u := unprocessedOf allIds processed with hu
  by_cases he : u.isEmpty
  · rw [List.isEmpty_iff] at he
    simp [he]
  · simp only [he, if_false]
    refine ⟨⟨u.drop (min k u.length), List.take_append_drop _ _⟩, ?_, ?_⟩
    · simp [Nat.min_assoc]
    · simp

/-- Witness for C6 on a six-element unprocessed list with draw 5. -/
theorem C6_batch_prefix_witness :
    (∃ t, get_unprocessed_batch ["a", "b", "c", "d", "e", "f"] [] 5 ++ t
        = unprocessedOf ["a", "b", "c", "d", "e", "f"] []) ∧
    (get_unprocessed_batch ["a", "b", "c", "d", "e", "f"] [] 5).length
      = min 5 (unprocessedOf ["a", "b", "c", "d", "e", "f"] []).length ∧
    (get_unprocessed_batch ["a", "b", "c", "d", "e", "f"] [] 5).length
      ≤ (unprocessedOf ["a", "b", "c", "d", "e", "f"] []).length :=
  C6_batch_prefix ["a", "b", "c", "d", "e", "f"] [] 5 (by decide) (by decide)

/-- **C7.** The unprocessed sequence is a sublist (order-preserving
subsequence) of the master list and contains no element of the processed
set. -/
theorem C7_unprocessed_sublist (allIds processed : List String) :
    List.Sublist (unprocessedOf allIds processed) allIds ∧
    ∀ x ∈ unprocessedOf allIds processed, x ∉ processed := by
  refine ⟨List.filter_sublist _, fun x hx => ?_⟩
  simp only [unprocessedOf, List.mem_filter, Bool.not_eq_true'] at hx
  intro hmem
  simp at hx
  exact hx.2 hmem

/-- Witness for C7 on a concrete master list and processed set. -/
theorem C7_unprocessed_sublist_witness :
    List.Sublist (unprocessedOf ["a", "b"] ["b"]) ["a", "b"] ∧ "a" ∉ ["b"] :=
  ⟨(C7_unprocessed_sublist ["a", "b"] ["b"]).1,
    (C7_unprocessed_sublist ["a", "b"] ["b"]).2 "a" (by decide)⟩

/-! ## C3: duplicate submission within one batch

`load_post_ids` keeps every valid line of `postIds.txt` in order, duplicates
included, and `get_unprocessed_batch` filters and takes a prefix, so a master
list with a repeated identifier line yields a batch containing that
identifier twice. -/

/-- **C3 counterexample.** A master-list blob consisting of the same valid
identifier on two lines loads as a two-element list, and the selected batch
(with batch-size draw 5) submits that identifier twice. -/
theorem C3_counterexample :
    parseValidLines
        "00000000-0000-0000-0000-000000000000\n00000000-0000-0000-0000-000000000000"
      = ["00000000-0000-0000-0000-000000000000",
         "00000000-0000-0000-0000-000000000000"] ∧
    get_unprocessed_batch
        (parseValidLines
          "00000000-0000-0000-0000-000000000000\n00000000-0000-0000-0000-000000000000")
        [] 5
      = ["00000000-0000-0000-0000-000000000000",
         "00000000-0000-0000-0000-000000000000"] ∧
    ¬ (get_unprocessed_batch
        (parseValidLines
          "00000000-0000-0000-0000-000000000000\n00000000-0000-0000-0000-000000000000")
        [] 5).Nodup := by
  refine ⟨by decide, by decide, by decide⟩

/-- **C3 amended.** Provided the loaded master list contains no repeated
identifier, the selected batch contains no identifier twice (the batch is a
prefix of a filtering of the master list, so duplicate-freeness of the master
list is preserved; duplicates in the master list propagate into the batch). -/
theorem C3_batch_nodup (allIds processed : List String) (k : Nat)
    (hnd : allIds.Nodup) :
    (get_unprocessed_batch allIds processed k).Nodup := by
  unfold get_unprocessed_batch
  by_cases he : (unprocessedOf allIds processed).isEmpty
  · simp [he]
  · simp only [he, if_false]
    exact List.Nodup.sublist (List.take_sublist _ _) (List.Nodup.filter _ hnd)

/-- Witness for C3 amended on a concrete duplicate-free master list. -/
theorem C3_batch_nodup_witness :
    (get_unprocessed_batch ["a", "b", "c"] ["b"] 5).Nodup :=
  C3_batch_nodup ["a", "b", "c"] ["b"] 5 (by decide)

/-! ## C2: re-authentication behaviour of `process_post`
(src/checker.py lines 185-210)

The HTTP traffic of one identifier's submission is embedded as the list of
responses the processing endpoint returns to the successive POSTs of that
submission, each response carrying its status code and whether its final URL
contains the substring "Login".  The outcomes of the successive `login()`
calls are likewise a list of booleans.  `process_post` consumes one response
per POST; on a 200 response it returns success immediately; on a 401/403
status or a Login-containing URL it consumes one login outcome, and on a
successful login it recurses on the remaining traffic (the source line
`return self.process_post(post_id)`); the returned pair carries the result
and the number of re-authentication attempts performed.  `none` means the
supplied traffic was exhausted. -/

structure Resp where
  status : Nat
  urlHasLogin : Bool
deriving DecidableEq

/-- `process_post` of the source over explicit traffic, counting
re-authentication attempts. -/
def process_post : List Resp → List Bool → Option (Bool × Nat)
  | [], _ => none
  | r :: rs, logins =>
    if r.status == 200 then some (true, 0)
    else if r.status == 401 || r.status == 403 || r.urlHasLogin then
      match logins with
      | [] => none
      | l :: ls =>
        if l then (process_post rs ls).map (fun p => (p.1, p.2 + 1))
        else some (false, 1)
    else some (false, 0)

/-- `process_batch` of the source (src/checker.py lines 212-250), with each
identifier's `process_post` outcome supplied by `outcome`; returns the
successful and the failed identifiers, each in batch order.  (The sleeps and
the delay computation do not affect these lists.) -/
def process_batch (outcome : String → Bool) : List String → List String × List String
  | [] => ([], [])
  | pid :: rest =>
    let r := process_batch outcome rest
    if outcome pid then (pid :: r.1, r.2) else (r.1, pid :: r.2)

/-- A session-expired response used to state the claims. -/
def expiredResp : Resp := ⟨401, false⟩

/-- A success response used to state the claims. -/
def okResp : Resp := ⟨200, false⟩

/-- One re-authentication cycle: an expired response with a successful
login makes `process_post` retry on the remaining traffic, counting one
more re-authentication attempt. -/
lemma process_post_expired_step (rs : List Resp) (ls : List Bool) :
    process_post (expiredResp :: rs) (true :: ls)
      = (process_post rs ls).map (fun p => (p.1, p.2 + 1)) := by
  simp [process_post, expiredResp]

/-- **C2 counterexample.** Two ways the code violates "exactly one
re-authentication attempt followed by exactly one retry, never more":
a response whose final URL contains "Login" but whose status is 200 is
treated as success with zero re-authentications, and a submission whose
retry is again rejected with 401 is re-authenticated and retried a second
time (two re-authentication attempts for one submission). -/
theorem C2_counterexample :
    process_post [⟨200, true⟩] [] = some (true, 0) ∧
    process_post [expiredResp, expiredResp, okResp] [true, true]
      = some (true, 2) := by
  refine ⟨by decide, by decide⟩

/-- **C2 amended.** A response with status 401/403 or with a
Login-containing final URL and a non-200 status triggers a
re-authentication followed, on success, by a retry of the same submission,
and this repeats with no upper bound (`k` expiry responses cause `k`
re-authentication cycles); a 200 response is success even if its URL
contains "Login"; if re-authentication fails the submission returns failure
after that single attempt, and `process_batch` records the identifier as
failed and still processes the rest of the batch. -/
theorem C2_reauth_behaviour :
    (∀ k : Nat,
      process_post (List.replicate k expiredResp ++ [okResp]) (List.replicate k true)
        = some (true, k)) ∧
    (∀ (r : Resp) (rs : List Resp) (ls : List Bool),
      (r.status = 401 ∨ r.status = 403 ∨ r.urlHasLogin = true) → r.status ≠ 200 →
      process_post (r :: rs) (false :: ls) = some (false, 1)) ∧
    (∀ (r : Resp) (rs : List Resp) (ls : List Bool),
      r.status = 200 → process_post (r :: rs) ls = some (true, 0)) ∧
    (∀ (outcome : String → Bool) (pid : String) (rest : List String),
      outcome pid = false →
      process_batch outcome (pid :: rest)
        = ((process_batch outcome rest).1, pid :: (process_batch outcome rest).2)) := by
  refine ⟨?_, ?_, ?_, ?_⟩
  · intro k
    induction k with
    | zero => decide
    | succ k ih =>
      rw [List.replicate_succ, List.replicate_succ, List.cons_append,
        process_post_expired_step, ih]
      rfl
  · intro r rs ls hcond h200
    rcases hcond with h | h | h <;>
      simp [process_post, h, h200]
  · intro r rs ls h200
    simp [process_post, h200]
  · intro outcome pid rest hfail
    simp [process_batch, hfail]

/-- Witness for C2 amended: a 401 response with a failing re-authentication
yields failure after one re-authentication attempt, and a failed identifier
is recorded while the rest of the batch is still processed. -/
theorem C2_reauth_behaviour_witness :
    process_post [expiredResp] [false] = some (false, 1) ∧
    process_batch (fun pid => pid == "b") ["a", "b"] = (["b"], ["a"]) := by
  constructor
  · exact C2_reauth_behaviour.2.1 expiredResp [] [] (Or.inl rfl) (by decide)
  · rw [C2_reauth_behaviour.2.2.2 (fun pid => pid == "b") "a" ["b"] (by decide)]
    decide

/-! ## C4: startup configuration validation
(src/checker.py lines 19-31 and 34-44)

The environment is embedded as a lookup from variable name to
`Option String` (`none` = unset).  `PostProcessor.__init__` rejects (raises
`ValueError`, so the process exits before any network operation) exactly
when some variable of `required_vars` is unset or empty (Python truthiness
of `os.environ.get(var)`).  `REPO_NAME` is read with the default
`"DataDeltas/qcAuto"` and is not in `required_vars`; `USER_AGENT` is a
hard-coded constant. -/

/-- `required_vars` of the source. -/
def required_vars : List String :=
  ["ROOBTECH_EMAIL", "ROOBTECH_PASSWORD", "PERSONAL_ACCESS_TOKEN",
   "LOGIN_URL", "API_URL", "PROJECT_ID"]

/-- Python truthiness of `os.environ.get(var)`: set and non-empty. -/
def truthyEnv (v : Option String) : Bool :=
  match v with
  | none => false
  | some s => !(s == "")

/-- `missing_vars` of the source. -/
def missing_vars (env : String → Option String) : List String :=
  required_vars.filter (fun v => !truthyEnv (env v))

/-- `PostProcessor.__init__` succeeds (no `ValueError`) iff no required
variable is missing. -/
def initAccepts (env : String → Option String) : Bool :=
  (missing_vars env).isEmpty

/-- `REPO_NAME` of the source: environment value with a default. -/
def REPO_NAME (env : String → Option String) : String :=
  (env "REPO_NAME").getD "DataDeltas/qcAuto"

/-- An environment with the six required variables set and nothing else. -/
def envSixOnly : String → Option String :=
  fun v => if required_vars.contains v then some "x" else none

/-- **C4 counterexample.** With the six variables of `required_vars` set but
the store repository location (`REPO_NAME`) absent, startup validation
accepts and the repository name silently defaults, contradicting the claim
that the process refuses to start when the store repository location is
absent. -/
theorem C4_counterexample :
    initAccepts envSixOnly = true ∧ envSixOnly "REPO_NAME" = none ∧
    REPO_NAME envSixOnly = "DataDeltas/qcAuto" := by
  refine ⟨by decide, by decide, by decide⟩

/-- **C4 amended.** Startup validation accepts exactly when the login
endpoint URL, processing endpoint URL, project context identifier, account
credentials (email and password) and store access token are all set and
non-empty; the store repository location is NOT validated (it defaults to
`"DataDeltas/qcAuto"` when absent) and the client identity string is a
hard-coded constant, not configuration. -/
theorem C4_required_config (env : String → Option String) :
    (initAccepts env = true ↔
      (truthyEnv (env "ROOBTECH_EMAIL") = true ∧
       truthyEnv (env "ROOBTECH_PASSWORD") = true ∧
       truthyEnv (env "PERSONAL_ACCESS_TOKEN") = true ∧
       truthyEnv (env "LOGIN_URL") = true ∧
       truthyEnv (env "API_URL") = true ∧
       truthyEnv (env "PROJECT_ID") = true)) ∧
    (env "REPO_NAME" = none → REPO_NAME env = "DataDeltas/qcAuto") ∧
    USER_AGENT
      = "Mozilla/5.0 (X11; Linux x86_64) AppleWebKit/537.36 (KHTML, like Gecko) Chrome/137.0.0.0 Safari/537.36" := by
  refine ⟨?_, fun h => by simp [REPO_NAME, h], rfl⟩
  simp only [initAccepts, missing_vars, required_vars, List.filter, List.isEmpty_iff]
  constructor
  · intro h
    by_cases h1 : truthyEnv (env "ROOBTECH_EMAIL") = true <;>
    by_cases h2 : truthyEnv (env "ROOBTECH_PASSWORD") = true <;>
    by_cases h3 : truthyEnv (env "PERSONAL_ACCESS_TOKEN") = true <;>
    by_cases h4 : truthyEnv (env "LOGIN_URL") = true <;>
    by_cases h5 : truthyEnv (env "API_URL") = true <;>
    by_cases h6 : truthyEnv (env "PROJECT_ID") = true <;>
      simp_all
  · intro ⟨h1, h2, h3, h4, h5, h6⟩
    simp [h1, h2, h3, h4, h5, h6]

/-- Witness for C4 amended on a concrete environment. -/
theorem C4_required_config_witness :
    initAccepts envSixOnly = true ∧ REPO_NAME envSixOnly = "DataDeltas/qcAuto" :=
  ⟨(C4_required_config envSixOnly).1.mpr
      ⟨by decide, by decide, by decide, by decide, by decide, by decide⟩,
    (C4_required_config envSixOnly).2.1 (by decide)⟩

/-! ## C8: saving the processed set (`save_processed_ids`,
src/checker.py lines 280-296)

The written blob is the newline-join of the list computed below: the
stripped non-empty lines of the previously stored content, in order,
followed by the identifiers of `post_ids` that are not already present,
appended in order (the membership test runs against the growing list, so a
repeated new identifier is appended only once). -/

/-- The line parsing of `save_processed_ids`:
`[line.strip() for line in content.split('\n') if line.strip()]` when the
content is not blank, else `[]`.  Unlike loading, no validity filter. -/
def parseProcessedList (content : String) : List String :=
  if !(stripChars content.data).isEmpty then
    ((splitNl content.data).map (fun l => String.mk (stripChars l))).filter
      (fun l => !(l == ""))
  else []

/-- The append loop of `save_processed_ids`. -/
def mergeNewIds (processed_list : List String) (post_ids : List String) : List String :=
  post_ids.foldl (fun acc pid => if pid ∈ acc then acc else acc ++ [pid]) processed_list

/-- `save_processed_ids` of the source, as the list whose newline-join is
uploaded. -/
def save_processed_ids (content : String) (post_ids : List String) : List String :=
  mergeNewIds (parseProcessedList content) post_ids

lemma mergeNewIds_cons (acc : List String) (pid : String) (ids : List String) :
    mergeNewIds acc (pid :: ids)
      = mergeNewIds (if pid ∈ acc then acc else acc ++ [pid]) ids := by
  simp [mergeNewIds, List.foldl]

/-- The merge loop only appends: the existing list is a prefix of the
result. -/
lemma mergeNewIds_append (ids acc : List String) :
    ∃ t, mergeNewIds acc ids = acc ++ t := by
  induction ids generalizing acc with
  | nil => exact ⟨[], by simp [mergeNewIds]⟩
  | cons i ids ih =>
    rw [mergeNewIds_cons]
    by_cases h : i ∈ acc
    · rw [if_pos h]; exact ih acc
    · rw [if_neg h]
      obtain ⟨t, ht⟩ := ih (acc ++ [i])
      exact ⟨[i] ++ t, by simp [ht]⟩

/-- The merge loop never duplicates an element already present: its
multiplicity is unchanged. -/
lemma mergeNewIds_count_mem (ids : List String) :
    ∀ acc x, x ∈ acc → (mergeNewIds acc ids).count x = acc.count x := by
  induction ids with
  | nil => intro acc x _; simp [mergeNewIds]
  | cons i ids ih =>
    intro acc x hx
    rw [mergeNewIds_cons]
    by_cases h : i ∈ acc
    · rw [if_pos h]; exact ih acc x hx
    · rw [if_neg h]
      have hxi : x ≠ i := fun he => h (he ▸ hx)
      rw [ih (acc ++ [i]) x (List.mem_append_left _ hx)]
      simp [List.count_append, List.count_singleton, hxi]

/-- An identifier not yet present ends up in the result exactly once. -/
lemma mergeNewIds_count_new (ids : List String) :
    ∀ acc x, x ∉ acc → x ∈ ids → (mergeNewIds acc ids).count x = 1 := by
  induction ids with
  | nil => intro acc x _ hx; simp at hx
  | cons i ids ih =>
    intro acc x hnot hx
    rw [mergeNewIds_cons]
    by_cases h : i ∈ acc
    · rw [if_pos h]
      have hxi : x ≠ i := fun he => hnot (he ▸ h)
      exact ih acc x hnot ((List.mem_cons.mp hx).resolve_left hxi)
    · rw [if_neg h]
      by_cases hxi : x = i
      · subst hxi
        rw [mergeNewIds_count_mem ids (acc ++ [x]) x (List.mem_append_right _ (by simp))]
        have : acc.count x = 0 := List.count_eq_zero.mpr hnot
        simp [List.count_append, this]
      · have hx' : x ∈ ids := (List.mem_cons.mp hx).resolve_left hxi
        have : x ∉ acc ++ [i] := by
          simp only [List.mem_append, List.mem_singleton]
          rintro (h1 | h2)
          · exact hnot h1
          · exact hxi h2
        exact ih (acc ++ [i]) x this hx'

/-- Nothing beyond the old content and the new identifiers appears. -/
lemma mergeNewIds_subset (ids : List String) :
    ∀ acc x, x ∈ mergeNewIds acc ids → x ∈ acc ∨ x ∈ ids := by
  induction ids with
  | nil => intro acc x hx; simp [mergeNewIds] at hx; exact Or.inl hx
  | cons i ids ih =>
    intro acc x hx
    rw [mergeNewIds_cons] at hx
    by_cases h : i ∈ acc
    · rw [if_pos h] at hx
      rcases ih acc x hx with h1 | h1
      · exact Or.inl h1
      · exact Or.inr (List.mem_cons_of_mem _ h1)
    · rw [if_neg h] at hx
      rcases ih (acc ++ [i]) x hx with h1 | h1
      · rcases List.mem_append.mp h1 with h2 | h2
        · exact Or.inl h2
        · exact Or.inr (by simp at h2; simp [h2])
      · exact Or.inr (List.mem_cons_of_mem _ h1)

/-- **C8.** Writing the processed set only grows it: the previously stored
(stripped, non-empty) lines form a prefix of the written list in their
original order; an existing line keeps its multiplicity (no removal, no
re-append); a new identifier not already present is appended exactly once,
even if repeated in `post_ids`; and nothing else appears. -/
theorem C8_save_monotone (content : String) (post_ids : List String) :
    (∃ t, save_processed_ids content post_ids = parseProcessedList content ++ t) ∧
    (∀ x ∈ parseProcessedList content,
      (save_processed_ids content post_ids).count x
        = (parseProcessedList content).count x) ∧
    (∀ x ∈ post_ids, x ∉ parseProcessedList content →
      (save_processed_ids content post_ids).count x = 1) ∧
    (∀ x ∈ save_processed_ids content post_ids,
      x ∈ parseProcessedList content ∨ x ∈ post_ids) :=
  ⟨mergeNewIds_append post_ids _,
    fun x hx => mergeNewIds_count_mem post_ids _ x hx,
    fun x hx hnot => mergeNewIds_count_new post_ids _ x hnot hx,
    fun x hx => mergeNewIds_subset post_ids _ x hx⟩

/-- Witness for C8 on a concrete stored content and batch. -/
theorem C8_save_monotone_witness :
    (∃ t, save_processed_ids "a\nb" ["c", "b", "c"]
        = parseProcessedList "a\nb" ++ t) ∧
    (save_processed_ids "a\nb" ["c", "b", "c"]).count "b"
      = (parseProcessedList "a\nb").count "b" ∧
    (save_processed_ids "a\nb" ["c", "b", "c"]).count "c" = 1 :=
  ⟨(C8_save_monotone "a\nb" ["c", "b", "c"]).1,
    (C8_save_monotone "a\nb" ["c", "b", "c"]).2.1 "b" (by decide),
    (C8_save_monotone "a\nb" ["c", "b", "c"]).2.2.1 "c" (by decide) (by decide)⟩

/-! ## C1: the orchestrated run (`PostProcessor.run`, src/checker.py
lines 298-337, and `main`, lines 339-347)

One blob-store fetch (after the shared retry policy has run its course) is
embedded as `Fetch`: `found content sha` is an HTTP 200, `notFound` is a
404 — which `download_file_from_github` converts to `("", None)` without
raising — and `httpError` is any other status or transport failure, which
raises after the attempt budget.  The run's remaining inputs (login
outcome, batch-size draw, per-identifier `process_post` outcomes, the
re-download inside `save_processed_ids` and the upload outcome) are passed
explicitly.  `run` returns the value of `PostProcessor.run()` (`none` when
an exception escapes to `main`'s handler), the identifiers submitted, and
the store resources to which a write was attempted. -/

inductive Fetch where
  | found (content sha : String)
  | notFound
  | httpError
deriving DecidableEq

/-- `download_file_from_github` of the source: 200 yields the content and
its version token, 404 yields `("", None)`, anything else raises. -/
def download : Fetch → Except Unit (String × Option String)
  | .found c s => .ok (c, some s)
  | .notFound => .ok ("", none)
  | .httpError => .error ()

/-- `load_post_ids` of the source: on a blank or missing blob the master
list is set to `[]` (only a log message records the failure); a raised
download error propagates. -/
def load_post_ids (f : Fetch) : Except Unit (List String) :=
  (download f).map
    (fun p => if !(stripChars p.1.data).isEmpty then parseValidLines p.1 else [])

/-- `load_processed_ids` of the source: same parsing, empty set when blank
or missing. -/
def load_processed_ids (f : Fetch) : Except Unit (List String) :=
  (download f).map
    (fun p => if !(stripChars p.1.data).isEmpty then parseValidLines p.1 else [])

/-- The inputs one run consumes. -/
structure RunInput where
  loginOk : Bool
  processedFetch : Fetch
  masterFetch : Fetch
  batchDraw : Nat
  postOutcome : String → Bool
  saveFetch : Fetch
  uploadOutcome : Except Unit String

/-- The observable outcome of one run: the return value of
`PostProcessor.run()` (`none` when an exception escapes), the submitted
identifiers, and the store resources to which a write was attempted. -/
structure RunOut where
  ret : Option Bool
  submitted : List String
  writes : List String
deriving DecidableEq

/-- `PostProcessor.run` of the source: login, load both blobs, select the
batch (empty batch is reported as success), process it, save the
successes if any (re-downloading the processed blob and uploading), and
report success only when nothing failed. -/
def run (inp : RunInput) : RunOut :=
  if !inp.loginOk then ⟨some false, [], []⟩
  else
    match load_processed_ids inp.processedFetch with
    | .error _ => ⟨none, [], []⟩
    | .ok processed =>
      match load_post_ids inp.masterFetch with
      | .error _ => ⟨none, [], []⟩
      | .ok allIds =>
        let batch := get_unprocessed_batch allIds processed inp.batchDraw
        if batch.isEmpty then ⟨some true, [], []⟩
        else
          let sf := process_batch inp.postOutcome batch
          if !sf.1.isEmpty then
            match download inp.saveFetch with
            | .error _ => ⟨none, batch, []⟩
            | .ok _ =>
              match inp.uploadOutcome with
              | .error _ => ⟨none, batch, [PROCESSED_FILE]⟩
              | .ok newSha =>
                if !(newSha == "") then ⟨some sf.2.isEmpty, batch, [PROCESSED_FILE]⟩
                else ⟨some false, batch, [PROCESSED_FILE]⟩
          else ⟨some sf.2.isEmpty, batch, []⟩

/-- `main` of the source: exit 0 only when `run()` returns `True`; a
`False` return or an escaped exception exits 1. -/
def exit_code (o : RunOut) : Nat := if o.ret = some true then 0 else 1

/-- **C1.** Evaluation of the run at the claim's scenarios.  When the
master-list fetch returns not-found, the run submits nothing and attempts
no write — but `run()` returns `True` ("All posts have been processed!")
and the process exits 0, not the fatal nonzero failure the claim states:
`load_post_ids` only logs "Could not load post IDs from GitHub" and leaves
the worklist empty, which `run` then treats as everything done.  When the
master-list fetch fails repeatedly at the transport level, the raised
error escapes and the process does exit 1 with nothing submitted and no
write, as the claim states for that half. -/
theorem C1_master_notfound_run :
    (run ⟨true, .notFound, .notFound, 5, fun _ => true, .notFound, .ok "s"⟩
      = ⟨some true, [], []⟩) ∧
    exit_code (run ⟨true, .notFound, .notFound, 5, fun _ => true, .notFound, .ok "s"⟩)
      = 0 ∧
    (run ⟨true, .notFound, .httpError, 5, fun _ => true, .notFound, .ok "s"⟩
      = ⟨none, [], []⟩) ∧
    exit_code (run ⟨true, .notFound, .httpError, 5, fun _ => true, .notFound, .ok "s"⟩)
      = 1 := by
  refine ⟨by decide, by decide, by decide, by decide⟩

/-! ## C9 and C10: the validator against the canonical pattern

Python's `$` accepts one trailing newline, so `is_valid_id` accepts exactly
the canonical-pattern strings and the canonical-pattern strings followed by
a single `'\n'`.  The lemmas below establish this equivalence between the
source-side matcher (`pyLineEnd`) and the spec-side matcher
(`strictEnd`). -/

lemma isHexDigit_nl : isHexDigit '\n' = false := by decide

lemma consumeHex_append_nl : ∀ (n : Nat) (cs : List Char),
    consumeHex n (cs ++ ['\n']) = (consumeHex n cs).map (fun r => r ++ ['\n'])
  | 0, cs => by simp [consumeHex]
  | n + 1, [] => by simp [consumeHex, isHexDigit_nl]
  | n + 1, c :: cs => by
    by_cases h : isHexDigit c
    · simp only [List.cons_append, consumeHex, h, if_true]
      exact consumeHex_append_nl n cs
    · simp [consumeHex, h]

/-- A successful `consumeHex` splits its input: the consumed prefix is
itself fully consumed. -/
lemma consumeHex_decomp : ∀ (n : Nat) (cs r : List Char),
    consumeHex n cs = some r → ∃ pre, cs = pre ++ r ∧ consumeHex n pre = some []
  | 0, cs, r => by
    intro h
    simp only [consumeHex, Option.some_inj] at h
    exact ⟨[], by simp [h], by simp [consumeHex]⟩
  | n + 1, [], r => by intro h; simp [consumeHex] at h
  | n + 1, c :: cs, r => by
    intro h
    by_cases hc : isHexDigit c
    · simp only [consumeHex, hc, if_true] at h
      obtain ⟨pre, hpre, hcons⟩ := consumeHex_decomp n cs r h
      exact ⟨c :: pre, by simp [hpre], by simp [consumeHex, hc, hcons]⟩
    · simp [consumeHex, hc] at h

/-- A fully consumed prefix stays consumable in front of anything. -/
lemma consumeHex_extend : ∀ (n : Nat) (pre t : List Char),
    consumeHex n pre = some [] → consumeHex n (pre ++ t) = some t
  | 0, pre, t => by
    intro h
    simp only [consumeHex, Option.some_inj] at h
    simp [h, consumeHex]
  | n + 1, [], t => by intro h; simp [consumeHex] at h
  | n + 1, c :: pre, t => by
    intro h
    by_cases hc : isHexDigit c
    · simp only [consumeHex, hc, if_true] at h ⊢
      exact consumeHex_extend n pre t h
    · simp [consumeHex, hc] at h

lemma pyLineEnd_append_nl (cs : List Char) :
    pyLineEnd (cs ++ ['\n']) = strictEnd cs := by
  cases cs with
  | nil => decide
  | cons c cs => simp [pyLineEnd, strictEnd]


/-- Reduction: a failed group consumption rejects. -/
lemma matchGroups_cons_none {endOk : List Char → Bool} {g : Nat} {gs : List Nat}
    {cs : List Char} (hc : consumeHex g cs = none) :
    matchGroups endOk (g :: gs) cs = false := by
  unfold matchGroups; rw [hc]

/-- Reduction: after the last group the end test runs on the rest. -/
lemma matchGroups_single_some {endOk : List Char → Bool} {g : Nat}
    {cs rest : List Char} (hc : consumeHex g cs = some rest) :
    matchGroups endOk [g] cs = endOk rest := by
  unfold matchGroups; rw [hc]

/-- Reduction: with groups left but no input after a group, reject. -/
lemma matchGroups_cons2_some_nil {endOk : List Char → Bool} {g g2 : Nat}
    {gs : List Nat} {cs : List Char} (hc : consumeHex g cs = some []) :
    matchGroups endOk (g :: g2 :: gs) cs = false := by
  unfold matchGroups; rw [hc]

/-- Reduction: with groups left, the next character must be the hyphen. -/
lemma matchGroups_cons2_some_cons {endOk : List Char → Bool} {g g2 : Nat}
    {gs : List Nat} {cs rest2 : List Char} {c : Char}
    (hc : consumeHex g cs = some (c :: rest2)) :
    matchGroups endOk (g :: g2 :: gs) cs
      = if c = '-' then matchGroups endOk (g2 :: gs) rest2 else false := by
  conv_lhs => rw [matchGroups]
  rw [hc]

/-- The strict matcher implies the Python matcher. -/
lemma matchGroups_strict_mono : ∀ (gs : List Nat) (cs : List Char),
    matchGroups strictEnd gs cs = true → matchGroups pyLineEnd gs cs = true
  | [], cs => by
    intro h
    simp only [matchGroups, strictEnd, beq_iff_eq] at h
    simp [matchGroups, pyLineEnd, h]
  | g :: gs, cs => by
    intro h
    cases hc : consumeHex g cs with
    | none => rw [matchGroups_cons_none hc] at h; exact absurd h (by simp)
    | some rest =>
      cases gs with
      | nil =>
        rw [matchGroups_single_some hc] at h ⊢
        simp only [strictEnd, beq_iff_eq] at h
        simp [pyLineEnd, h]
      | cons g2 gs2 =>
        cases rest with
        | nil => rw [matchGroups_cons2_some_nil hc] at h; exact absurd h (by simp)
        | cons c rest2 =>
          rw [matchGroups_cons2_some_cons hc] at h ⊢
          by_cases hdash : c = '-'
          · rw [if_pos hdash] at h ⊢
            exact matchGroups_strict_mono (g2 :: gs2) rest2 h
          · rw [if_neg hdash] at h
            exact absurd h (by simp)

/-- On input ending in a newline, the Python matcher behaves as the strict
matcher on the input without that newline. -/
lemma matchGroups_append_nl : ∀ (gs : List Nat) (cs : List Char),
    matchGroups pyLineEnd gs (cs ++ ['\n']) = matchGroups strictEnd gs cs
  | [], cs => pyLineEnd_append_nl cs
  | g :: gs, cs => by
    cases hc : consumeHex g cs with
    | none =>
      have hc2 : consumeHex g (cs ++ ['\n']) = none := by
        rw [consumeHex_append_nl, hc]; rfl
      rw [matchGroups_cons_none hc2, matchGroups_cons_none hc]
    | some rest =>
      have hc2 : consumeHex g (cs ++ ['\n']) = some (rest ++ ['\n']) := by
        rw [consumeHex_append_nl, hc]; rfl
      cases gs with
      | nil =>
        rw [matchGroups_single_some hc2, matchGroups_single_some hc]
        exact pyLineEnd_append_nl rest
      | cons g2 gs2 =>
        cases rest with
        | nil =>
          rw [show ([] : List Char) ++ ['\n'] = '\n' :: [] from rfl] at hc2
          rw [matchGroups_cons2_some_cons hc2, matchGroups_cons2_some_nil hc]
          rw [if_neg (by decide : ¬('\n' = '-'))]
        | cons c rest2 =>
          rw [show (c :: rest2) ++ ['\n'] = c :: (rest2 ++ ['\n']) from rfl] at hc2
          rw [matchGroups_cons2_some_cons hc2, matchGroups_cons2_some_cons hc]
          by_cases hdash : c = '-'
          · rw [if_pos hdash, if_pos hdash]
            exact matchGroups_append_nl (g2 :: gs2) rest2
          · rw [if_neg hdash, if_neg hdash]

/-- An input the Python matcher accepts either is strictly canonical or is
a strictly canonical input followed by one newline. -/
lemma matchGroups_py_elim : ∀ (gs : List Nat) (cs : List Char),
    matchGroups pyLineEnd gs cs = true →
    matchGroups strictEnd gs cs = true ∨
      ∃ cs0, cs = cs0 ++ ['\n'] ∧ matchGroups strictEnd gs cs0 = true
  | [], cs => by
    intro h
    simp only [matchGroups, pyLineEnd, Bool.or_eq_true, beq_iff_eq] at h
    rcases h with h | h
    · exact Or.inl (by simp [matchGroups, strictEnd, h])
    · exact Or.inr ⟨[], by simp [h], by simp [matchGroups, strictEnd]⟩
  | g :: gs, cs => by
    intro h
    cases hc : consumeHex g cs with
    | none => rw [matchGroups_cons_none hc] at h; exact absurd h (by simp)
    | some rest =>
      cases gs with
      | nil =>
        rw [matchGroups_single_some hc] at h
        simp only [pyLineEnd, Bool.or_eq_true, beq_iff_eq] at h
        rcases h with h | h
        · subst h
          exact Or.inl (by rw [matchGroups_single_some hc]; rfl)
        · subst h
          obtain ⟨pre, hpre, hcons⟩ := consumeHex_decomp g cs ['\n'] hc
          refine Or.inr ⟨pre, hpre, ?_⟩
          rw [matchGroups_single_some hcons]; rfl
      | cons g2 gs2 =>
        cases rest with
        | nil => rw [matchGroups_cons2_some_nil hc] at h; exact absurd h (by simp)
        | cons c rest2 =>
          rw [matchGroups_cons2_some_cons hc] at h
          by_cases hdash : c = '-'
          · rw [if_pos hdash] at h
            rcases matchGroups_py_elim (g2 :: gs2) rest2 h with h1 | ⟨r0, hr0, h1⟩
            · refine Or.inl ?_
              rw [matchGroups_cons2_some_cons hc, if_pos hdash]
              exact h1
            · obtain ⟨pre, hpre, hcons⟩ := consumeHex_decomp g cs (c :: rest2) hc
              have hcons2 : consumeHex g (pre ++ [c] ++ r0) = some (c :: r0) := by
                have h3 := consumeHex_extend g pre (c :: r0) hcons
                simpa using h3
              refine Or.inr ⟨pre ++ [c] ++ r0, ?_, ?_⟩
              · rw [hpre, hr0]; simp
              · rw [matchGroups_cons2_some_cons hcons2, if_pos hdash]
                exact h1
          · rw [if_neg hdash] at h
            exact absurd h (by simp)

/-- **C9 counterexample.** A canonical identifier followed by one newline
does not match the canonical pattern, yet the validator returns true. -/
theorem C9_counterexample :
    is_valid_id "aaaaaaaa-aaaa-aaaa-aaaa-aaaaaaaaaaaa\n" = true ∧
    canonicalPattern "aaaaaaaa-aaaa-aaaa-aaaa-aaaaaaaaaaaa\n" = false := by
  refine ⟨by decide, by decide⟩

/-- **C9 amended.** The validator returns true exactly on the strings
matching the canonical pattern (case-insensitively) and on the strings
consisting of such a string followed by a single trailing newline; it
returns false on every other string. -/
theorem C9_validator_pattern (s : String) :
    is_valid_id s = true ↔
      (canonicalPattern s = true ∨
        ∃ u : String, s = u ++ "\n" ∧ canonicalPattern u = true) := by
  constructor
  · intro h
    rcases matchGroups_py_elim uuid_groups s.data h with h1 | ⟨cs0, hcs, h1⟩
    · exact Or.inl h1
    · refine Or.inr ⟨String.mk cs0, ?_, h1⟩
      apply String.ext
      rw [String.data_append]
      exact hcs
  · rintro (h | ⟨u, hu, h⟩)
    · exact matchGroups_strict_mono _ _ h
    · subst hu
      show matchGroups pyLineEnd uuid_groups (u ++ "\n").data = true
      rw [String.data_append,
        show ("\n" : String).data = ['\n'] from rfl, matchGroups_append_nl]
      exact h

/-- Witness for C9 amended: an upper-case canonical-form string is
accepted. -/
theorem C9_validator_pattern_witness :
    is_valid_id "AAAAAAAA-AAAA-AAAA-AAAA-AAAAAAAAAAAA" = true :=
  (C9_validator_pattern "AAAAAAAA-AAAA-AAAA-AAAA-AAAAAAAAAAAA").mpr
    (Or.inl (by decide))

/-- **C10.** There is an input that is not a 36-character canonical
identifier on which the validator returns true: a canonical identifier
followed by a single trailing newline (Python's `$` matches before a final
newline). -/
theorem C10_trailing_newline_accepted :
    is_valid_id "00000000-0000-0000-0000-00000000000f\n" = true ∧
    canonicalPattern "00000000-0000-0000-0000-00000000000f\n" = false ∧
    ("00000000-0000-0000-0000-00000000000f\n").length = 37 ∧
    canonicalPattern "00000000-0000-0000-0000-00000000000f" = true := by
  refine ⟨by decide, by decide, by decide, by decide⟩

end Checker
